import Mathlib

/-!
Verification of the todo CRUD service (`src/main.rs`).

The service keeps a single SQLite table `todos(id TEXT PRIMARY KEY,
title TEXT NOT NULL, completed BOOLEAN NOT NULL)` and exposes five JSON
handlers backed by one parameterized SQL statement each.  We embed the
table as a `List Todo` (the rows in storage order) and each handler as a
pure function on that state, returning `Except Nat` where the `Nat` is
the HTTP status code of the error branch (`404`, `500`) and the payload
is the success response.  The `PRIMARY KEY` constraint is embedded in
`create_todo`: an `INSERT` whose id is already present fails with a
constraint violation, which the handler maps to `500`.
-/

set_option autoImplicit false

namespace TodoApp

/-- Rows of the `todos` table / the JSON entity returned by every handler
(struct `Todo` in `main.rs`). -/
structure Todo where
  id : String
  title : String
  completed : Bool
  deriving DecidableEq, Repr

/-- Request body of `POST /todos` (struct `CreateTodo`): a single
mandatory `title` field. -/
structure CreateTodo where
  title : String
  deriving DecidableEq, Repr

/-- Request body of `PUT /todos/:id` (struct `UpdateTodo`): one optional
`title` field. -/
structure UpdateTodo where
  title : Option String
  deriving DecidableEq, Repr

/-- The storage state: the rows of the `todos` table in storage order. -/
abbrev Db := List Todo

/-- Embeds `SELECT id, title, completed FROM todos WHERE id = ?` followed by
`fetch_optional`: the first row whose id matches, if any. -/
def findTodo (db : Db) (id : String) : Option Todo :=
  db.find? (fun t => t.id == id)

/-- The `PRIMARY KEY` invariant of the table: no two rows share an id. -/
def wfDb (db : Db) : Prop :=
  (db.map Todo.id).Nodup

instance : DecidablePred wfDb := fun db =>
  inferInstanceAs (Decidable (db.map Todo.id).Nodup)

/-- Lowercase hexadecimal digit for a nibble. -/
def hexDigit (n : Nat) : Char :=
  if n < 10 then Char.ofNat (48 + n) else Char.ofNat (87 + n)

/-- Fixed-width lowercase hexadecimal rendering of the low `width` nibbles
of `n`, most significant first. -/
def hexStr (n : Nat) (width : Nat) : String :=
  String.mk ((List.range width).map (fun i => hexDigit (n / 16 ^ (width - 1 - i) % 16)))

/-- Modelled from the spec: `Uuid::new_v4().to_string()` from the external
`uuid` crate, which is not part of this repository.  The spec describes it
as the textual representation of a random UUID-v4: 36 characters,
lowercase hex with hyphens, in `8-4-4-4-12` groups, with the version
nibble `4` and a variant nibble in `8..b`.  `r` stands for the value drawn
from the random source. -/
def uuidV4String (r : Nat) : String :=
  hexStr r 8 ++ "-" ++ hexStr (r / 2 ^ 32) 4 ++ "-4" ++ hexStr (r / 2 ^ 48) 3 ++ "-" ++
    String.mk [hexDigit (8 + r / 2 ^ 60 % 4)] ++ hexStr (r / 2 ^ 62) 3 ++ "-" ++
    hexStr (r / 2 ^ 74) 12

/-- Handler of `GET /todos` (`list_todos`): `SELECT id, title, completed
FROM todos` with `fetch_all` returns every row in storage order. -/
def list_todos (db : Db) : Except Nat (List Todo) :=
  Except.ok db

/-- Handler of `POST /todos` (`create_todo`): mint `Uuid::new_v4()` from
the random draw `r`, build the todo with the supplied title and
`completed = false`, and `INSERT` it.  The `PRIMARY KEY` on `id` makes the
insert fail (mapped to 500) when a row with that id already exists;
otherwise the row is appended and the todo returned. -/
def create_todo (r : Nat) (payload : CreateTodo) (db : Db) : Except Nat Todo × Db :=
  let todo : Todo := { id := uuidV4String r, title := payload.title, completed := false }
  if (findTodo db todo.id).isSome then
    (Except.error 500, db)
  else
    (Except.ok todo, db ++ [todo])

/-- Handler of `GET /todos/:id` (`get_todo`): fetch the row by id; `404`
when absent.  A `SELECT` leaves the table unchanged. -/
def get_todo (id : String) (db : Db) : Except Nat Todo × Db :=
  match findTodo db id with
  | some todo => (Except.ok todo, db)
  | none => (Except.error 404, db)

/-- The merge step of `update_todo`: `if let Some(title) = payload.title
{ todo.title = title; }`. -/
def applyTitle (payload : UpdateTodo) (todo : Todo) : Todo :=
  match payload.title with
  | some title => { todo with title := title }
  | none => todo

/-- Handler of `PUT /todos/:id` (`update_todo`): fetch the existing row
(404 when absent), replace its title when one is supplied, then
`UPDATE todos SET title = ?, completed = ? WHERE id = ?` writes title and
completed back to every row matching the id. -/
def update_todo (id : String) (payload : UpdateTodo) (db : Db) : Except Nat Todo × Db :=
  match findTodo db id with
  | none => (Except.error 404, db)
  | some found =>
    let todo := applyTitle payload found
    (Except.ok todo,
      db.map (fun row =>
        if row.id == todo.id then
          { row with title := todo.title, completed := todo.completed }
        else row))

/-- Handler of `DELETE /todos/:id` (`delete_todo`): `DELETE FROM todos
WHERE id = ?` removes every matching row; the handler returns 204 when
`rows_affected() == 1` and 404 otherwise. -/
def delete_todo (id : String) (db : Db) : Except Nat Nat × Db :=
  let remaining := db.filter (fun row => !(row.id == id))
  let rowsAffected := db.length - remaining.length
  if rowsAffected == 1 then
    (Except.ok 204, remaining)
  else
    (Except.error 404, remaining)

/-- Running a sequence of creates (one `POST /todos` per element, with its
random draw and title), collecting the todos of the successful ones. -/
def createAll (reqs : List (Nat × String)) (db : Db) : List Todo × Db :=
  match reqs with
  | [] => ([], db)
  | (r, title) :: rest =>
    match create_todo r { title := title } db with
    | (Except.ok todo, db1) =>
      let result := createAll rest db1
      (todo :: result.1, result.2)
    | (Except.error _, db1) => createAll rest db1

/-- Modelled from the spec: the JSON values exchanged at the boundary
(`serde_json`, external to this repository).  Only the forms the service
uses are needed: strings, booleans and objects. -/
inductive Json where
  | str : String → Json
  | bool : Bool → Json
  | obj : List (String × Json) → Json

/-- Field lookup in a JSON object, first occurrence wins. -/
def jsonLookup (key : String) : List (String × Json) → Option Json
  | [] => none
  | (k, v) :: rest => if k == key then some v else jsonLookup key rest

/-- Modelled from the spec: the derived `Serialize` instance of `Todo`
renders its three fields. -/
def Todo.toJson (t : Todo) : Json :=
  Json.obj [("id", Json.str t.id), ("title", Json.str t.title),
    ("completed", Json.bool t.completed)]

/-- Modelled from the spec: the derived `Deserialize` instance of `Todo`
reads the three mandatory fields and ignores unknown ones. -/
def Todo.fromJson (j : Json) : Option Todo :=
  match j with
  | Json.obj fields =>
    match jsonLookup "id" fields, jsonLookup "title" fields,
        jsonLookup "completed" fields with
    | some (Json.str id), some (Json.str title), some (Json.bool completed) =>
      some { id := id, title := title, completed := completed }
    | _, _, _ => none
  | _ => none

/-- Modelled from the spec: the derived `Deserialize` instance of
`UpdateTodo` reads the optional `title` field and (serde default) ignores
unknown fields such as a `completed` key. -/
def UpdateTodo.fromJson (j : Json) : Option UpdateTodo :=
  match j with
  | Json.obj fields =>
    match jsonLookup "title" fields with
    | some (Json.str title) => some { title := some title }
    | some _ => none
    | none => some { title := none }
  | _ => none

/-- Characters allowed in the textual form of a UUID-v4: lowercase hex
digits and the hyphen. -/
def isUuidChar (c : Char) : Bool :=
  c == '-' || ('0' ≤ c && c ≤ '9') || ('a' ≤ c && c ≤ 'f')

/-! Basic facts about `findTodo`. -/

theorem findTodo_id_of_some {db : Db} {id : String} {t : Todo}
    (h : findTodo db id = some t) : t.id = id := by
  have hp := List.find?_some h
  simpa using hp

theorem mem_of_findTodo {db : Db} {id : String} {t : Todo}
    (h : findTodo db id = some t) : t ∈ db :=
  List.mem_of_find?_eq_some h

theorem findTodo_eq_none_iff {db : Db} {id : String} :
    findTodo db id = none ↔ id ∉ db.map Todo.id := by
  unfold findTodo
  rw [List.find?_eq_none]
  constructor
  · intro h hmem
    obtain ⟨t, ht, hid⟩ := List.mem_map.mp hmem
    exact h t ht (by simp [hid])
  · intro h t ht hp
    exact h (List.mem_map.mpr ⟨t, ht, by simpa using hp⟩)

theorem findTodo_append_single {db : Db} {id : String} (t : Todo)
    (h : findTodo db id = none) :
    findTodo (db ++ [t]) id = if t.id == id then some t else none := by
  unfold findTodo at *
  rw [List.find?_append, h]
  cases hb : t.id == id <;> simp [List.find?, hb]

/-! Facts about the row-rewriting map performed by the SQL `UPDATE`. -/

theorem map_write_eq_of_not_mem {db : Db} {id : String} (t : Todo)
    (h : id ∉ db.map Todo.id) :
    db.map (fun row => if row.id == id then t else row) = db := by
  induction db with
  | nil => rfl
  | cons a l ih =>
    simp only [List.map_cons, List.mem_cons, not_or] at h
    have ha : ¬ (a.id == id) = true := by
      rw [beq_iff_eq]
      exact fun he => h.1 he.symm
    simp only [List.map_cons, if_neg ha]
    rw [ih h.2]

theorem findTodo_cons (a : Todo) (l : List Todo) (id : String) :
    findTodo (a :: l) id = cond (a.id == id) (some a) (findTodo l id) := by
  unfold findTodo
  rw [List.find?]
  cases a.id == id <;> rfl

theorem findTodo_map_write {db : Db} {id : String} (t : Todo) (hid : t.id = id) :
    findTodo (db.map (fun row => if row.id == id then t else row)) id =
      (findTodo db id).map (fun _ => t) := by
  induction db with
  | nil => rfl
  | cons a l ih =>
    cases hb : a.id == id with
    | false =>
      have hcond : ¬ (a.id == id) = true := by simp [hb]
      rw [List.map_cons, if_neg hcond, findTodo_cons, findTodo_cons, hb, cond_false, cond_false,
        ih]
    | true =>
      have ht : (t.id == id) = true := by rw [beq_iff_eq]; exact hid
      rw [List.map_cons, if_pos hb, findTodo_cons, ht, cond_true, findTodo_cons, hb, cond_true]
      rfl

theorem map_write_self {db : Db} {id : String} {t : Todo}
    (hwf : wfDb db) (h : findTodo db id = some t) :
    db.map (fun row => if row.id == id then t else row) = db := by
  induction db with
  | nil => simp [findTodo] at h
  | cons a l ih =>
    unfold wfDb at hwf
    simp only [List.map_cons, List.nodup_cons] at hwf
    cases hb : a.id == id with
    | false =>
      have hcond : ¬ (a.id == id) = true := by simp [hb]
      rw [findTodo_cons, hb, cond_false] at h
      rw [List.map_cons, if_neg hcond, ih hwf.2 h]
    | true =>
      rw [findTodo_cons, hb, cond_true] at h
      obtain rfl : a = t := by injection h
      have hid : a.id = id := eq_of_beq hb
      rw [List.map_cons, if_pos hb, map_write_eq_of_not_mem a (hid ▸ hwf.1)]

/-! Characterizations of the handlers. -/

theorem todo_overwrite_eq {a b : Todo} (h : a.id = b.id) :
    ({ a with title := b.title, completed := b.completed } : Todo) = b := by
  cases a
  cases b
  simp_all

theorem create_todo_ok {r : Nat} {p : CreateTodo} {db : Db} {todo : Todo} {db' : Db}
    (h : create_todo r p db = (Except.ok todo, db')) :
    todo = { id := uuidV4String r, title := p.title, completed := false } ∧
      db' = db ++ [todo] ∧ findTodo db (uuidV4String r) = none := by
  simp only [create_todo] at h
  split at h
  · exact absurd h (by simp)
  · rename_i hcond
    injection h with h1 h2
    injection h1 with h1
    refine ⟨h1.symm, by rw [← h1, ← h2], ?_⟩
    exact Option.not_isSome_iff_eq_none.mp hcond

theorem create_todo_err {r : Nat} {p : CreateTodo} {db : Db} {e : Nat} {db' : Db}
    (h : create_todo r p db = (Except.error e, db')) : db' = db := by
  simp only [create_todo] at h
  split at h
  · injection h with h1 h2
    exact h2.symm
  · exact absurd h (by simp)

theorem get_todo_found {db : Db} {id : String} {t : Todo}
    (h : findTodo db id = some t) : get_todo id db = (Except.ok t, db) := by
  unfold get_todo
  rw [h]

theorem get_todo_none {db : Db} {id : String}
    (h : findTodo db id = none) : get_todo id db = (Except.error 404, db) := by
  unfold get_todo
  rw [h]

theorem applyTitle_id (p : UpdateTodo) (t : Todo) : (applyTitle p t).id = t.id := by
  unfold applyTitle
  cases p.title <;> rfl

theorem applyTitle_completed (p : UpdateTodo) (t : Todo) :
    (applyTitle p t).completed = t.completed := by
  unfold applyTitle
  cases p.title <;> rfl

theorem update_todo_none {db : Db} {id : String} (p : UpdateTodo)
    (h : findTodo db id = none) :
    update_todo id p db = (Except.error 404, db) := by
  simp only [update_todo]
  rw [h]

theorem update_todo_found {db : Db} {id : String} {found : Todo} (p : UpdateTodo)
    (h : findTodo db id = some found) :
    update_todo id p db =
      (Except.ok (applyTitle p found),
       db.map (fun row => if row.id == id then applyTitle p found else row)) := by
  have hid : (applyTitle p found).id = id := by
    rw [applyTitle_id]
    exact findTodo_id_of_some h
  have hstep : update_todo id p db =
      (Except.ok (applyTitle p found),
       db.map (fun row =>
        if row.id == (applyTitle p found).id then
          { row with
            title := (applyTitle p found).title
            completed := (applyTitle p found).completed }
        else row)) := by
    simp only [update_todo]
    rw [h]
  rw [hstep]
  refine congrArg _ ?_
  refine congrArg (fun fn => List.map fn db) ?_
  funext row
  rw [hid]
  cases hbr : row.id == id with
  | false => simp [hbr]
  | true =>
    have hrid : row.id = id := eq_of_beq hbr
    simp only [if_pos hbr]
    exact todo_overwrite_eq (by rw [hrid, hid])

theorem delete_todo_def (id : String) (db : Db) :
    delete_todo id db =
      (if db.countP (fun row => row.id == id) = 1 then Except.ok 204 else Except.error 404,
       db.filter (fun row => !(row.id == id))) := by
  simp only [delete_todo]
  have hcount : db.length - (db.filter (fun row => !(row.id == id))).length
      = db.countP (fun row => row.id == id) := by
    rw [List.countP_eq_length_filter]
    have := List.length_eq_length_filter_add (fun row : Todo => row.id == id) (l := db)
    omega
  rw [hcount]
  by_cases hc : db.countP (fun row => row.id == id) = 1
  · rw [if_pos (by rw [beq_iff_eq]; exact hc), if_pos hc]
  · rw [if_neg (by rw [beq_iff_eq]; exact hc), if_neg hc]

theorem findTodo_filter_ne (db : Db) (id : String) :
    findTodo (db.filter (fun row => !(row.id == id))) id = none := by
  unfold findTodo
  rw [List.find?_eq_none]
  intro x hx
  have hmem := (List.mem_filter.mp hx).2
  simp only [Bool.not_eq_true'] at hmem
  simp [hmem]

theorem countP_filter_ne (db : Db) (id : String) :
    (db.filter (fun row => !(row.id == id))).countP (fun row => row.id == id) = 0 := by
  rw [List.countP_eq_zero]
  intro a ha
  have hmem := (List.mem_filter.mp ha).2
  simp only [Bool.not_eq_true'] at hmem
  simp [hmem]

/-! Shape of the minted ids. -/

theorem isUuidChar_hexDigit {n : Nat} (h : n < 16) : isUuidChar (hexDigit n) = true := by
  interval_cases n <;> decide

theorem hexStr_length (n width : Nat) : (hexStr n width).length = width := by
  simp [hexStr, String.length]

theorem hexStr_chars (n width : Nat) :
    ∀ c ∈ (hexStr n width).data, isUuidChar c = true := by
  intro c h
  simp only [hexStr, String.data, List.mem_map] at h
  obtain ⟨i, _, rfl⟩ := h
  exact isUuidChar_hexDigit (Nat.mod_lt _ (by omega))

theorem string_mk_single_length (c : Char) : (String.mk [c]).length = 1 := rfl

theorem uuidV4String_length (r : Nat) : (uuidV4String r).length = 36 := by
  simp only [uuidV4String, String.length_append, hexStr_length, string_mk_single_length]
  decide

theorem uuidChars_append {s t : String}
    (hs : ∀ c ∈ s.data, isUuidChar c = true) (ht : ∀ c ∈ t.data, isUuidChar c = true) :
    ∀ c ∈ (s ++ t).data, isUuidChar c = true := by
  intro c hc
  rcases List.mem_append.mp hc with h | h
  · exact hs c h
  · exact ht c h

theorem uuidV4String_chars (r : Nat) :
    ∀ c ∈ (uuidV4String r).data, isUuidChar c = true := by
  unfold uuidV4String
  have hvar : ∀ c ∈ (String.mk [hexDigit (8 + r / 2 ^ 60 % 4)]).data, isUuidChar c = true := by
    intro c hc
    simp only [String.data, List.mem_singleton] at hc
    subst hc
    exact isUuidChar_hexDigit (by omega)
  exact uuidChars_append (uuidChars_append (uuidChars_append (uuidChars_append
    (uuidChars_append (uuidChars_append (uuidChars_append (uuidChars_append
      (uuidChars_append (hexStr_chars r 8) (by decide)) (hexStr_chars (r / 2 ^ 32) 4))
      (by decide)) (hexStr_chars (r / 2 ^ 48) 3)) (by decide)) hvar)
      (hexStr_chars (r / 2 ^ 62) 3)) (by decide)) (hexStr_chars (r / 2 ^ 74) 12)

theorem uuidV4String_ne_empty (r : Nat) : uuidV4String r ≠ "" := by
  intro h
  have := uuidV4String_length r
  rw [h] at this
  simp [String.length] at this

/-! Preservation of the primary-key invariant. -/

theorem wfDb_nil : wfDb [] := List.nodup_nil

theorem wfDb_create (r : Nat) (p : CreateTodo) {db : Db} (hwf : wfDb db) :
    wfDb (create_todo r p db).2 := by
  rcases hres : (create_todo r p db).1 with e | todo
  · have : create_todo r p db = (Except.error e, (create_todo r p db).2) := by
      rw [← hres]
    rw [create_todo_err this]
    exact hwf
  · have hc : create_todo r p db = (Except.ok todo, (create_todo r p db).2) := by
      rw [← hres]
    obtain ⟨htodo, hdb, hfresh⟩ := create_todo_ok hc
    rw [hdb]
    unfold wfDb at *
    rw [List.map_append]
    simp only [List.map_cons, List.map_nil]
    rw [List.nodup_append]
    refine ⟨hwf, List.nodup_singleton _, ?_⟩
    intro x hx hy
    simp only [List.mem_singleton] at hy
    subst hy
    have hxid : todo.id = uuidV4String r := by rw [htodo]
    rw [hxid] at hx
    exact (findTodo_eq_none_iff.mp hfresh) hx

theorem map_write_ids (db : Db) (id : String) (t : Todo) (hid : t.id = id) :
    (db.map (fun row => if row.id == id then t else row)).map Todo.id = db.map Todo.id := by
  rw [List.map_map]
  refine List.map_eq_map_iff.mpr ?_
  intro row hrow
  simp only [Function.comp]
  cases hbr : row.id == id with
  | false => simp [hbr]
  | true => simp [hid, eq_of_beq hbr]

theorem wfDb_update (id : String) (p : UpdateTodo) {db : Db} (hwf : wfDb db) :
    wfDb (update_todo id p db).2 := by
  cases hfind : findTodo db id with
  | none =>
    rw [update_todo_none p hfind]
    exact hwf
  | some found =>
    rw [update_todo_found p hfind]
    unfold wfDb at *
    rw [map_write_ids db id (applyTitle p found)
      (by rw [applyTitle_id]; exact findTodo_id_of_some hfind)]
    exact hwf

theorem wfDb_delete (id : String) {db : Db} (hwf : wfDb db) :
    wfDb (delete_todo id db).2 := by
  rw [delete_todo_def]
  exact List.Nodup.sublist (List.Sublist.map Todo.id (List.filter_sublist db)) hwf

/-! Freshness and pairwise distinctness of the ids returned by a
sequence of creates. -/

theorem createAll_ids_mono (reqs : List (Nat × String)) {db : Db} {id : String}
    (h : id ∈ db.map Todo.id) :
    id ∈ ((createAll reqs db).2).map Todo.id := by
  induction reqs generalizing db with
  | nil => exact h
  | cons req rest ih =>
    obtain ⟨r, title⟩ := req
    simp only [createAll]
    rcases hc : create_todo r { title := title } db with ⟨res, db1⟩
    cases res with
    | ok todo =>
      simp only []
      refine ih ?_
      obtain ⟨_, hdb, _⟩ := create_todo_ok hc
      rw [hdb, List.map_append]
      exact List.mem_append_left _ h
    | error e =>
      simp only []
      refine ih ?_
      rw [create_todo_err hc]
      exact h

theorem createAll_fresh (reqs : List (Nat × String)) {db : Db} {id : String}
    (h : id ∈ db.map Todo.id) :
    id ∉ ((createAll reqs db).1).map Todo.id := by
  induction reqs generalizing db with
  | nil =>
    simp [createAll]
  | cons req rest ih =>
    obtain ⟨r, title⟩ := req
    simp only [createAll]
    rcases hc : create_todo r { title := title } db with ⟨res, db1⟩
    cases res with
    | ok todo =>
      simp only [List.map_cons, List.mem_cons, not_or]
      obtain ⟨htodo, hdb, hfresh⟩ := create_todo_ok hc
      constructor
      · intro heq
        have hxid : todo.id = uuidV4String r := by rw [htodo]
        rw [heq, hxid] at h
        exact (findTodo_eq_none_iff.mp hfresh) h
      · refine ih ?_
        rw [hdb, List.map_append]
        exact List.mem_append_left _ h
    | error e =>
      simp only []
      refine ih ?_
      rw [create_todo_err hc]
      exact h

theorem createAll_nodup (reqs : List (Nat × String)) (db : Db) :
    (((createAll reqs db).1).map Todo.id).Nodup := by
  induction reqs generalizing db with
  | nil => simp [createAll]
  | cons req rest ih =>
    obtain ⟨r, title⟩ := req
    simp only [createAll]
    rcases hc : create_todo r { title := title } db with ⟨res, db1⟩
    cases res with
    | ok todo =>
      simp only [List.map_cons, List.nodup_cons]
      obtain ⟨htodo, hdb, hfresh⟩ := create_todo_ok hc
      constructor
      · refine createAll_fresh rest ?_
        rw [hdb, List.map_append]
        exact List.mem_append_right _ (by simp)
      · exact ih db1
    | error e =>
      exact ih db1

/-! The `completed` column is untouched by updates, and rows whose id
differs from the one addressed are untouched by every item operation. -/

theorem map_write_pairs {db : Db} {id : String} {t : Todo}
    (hwf : wfDb db) (hfind : findTodo db id = some t)
    (t' : Todo) (hid : t'.id = id) (hcomp : t'.completed = t.completed) :
    (db.map (fun row => if row.id == id then t' else row)).map
        (fun x => (x.id, x.completed)) =
      db.map (fun x => (x.id, x.completed)) := by
  induction db with
  | nil => rfl
  | cons a l ih =>
    unfold wfDb at hwf
    simp only [List.map_cons, List.nodup_cons] at hwf
    cases hb : a.id == id with
    | false =>
      have hcond : ¬ (a.id == id) = true := by simp [hb]
      rw [findTodo_cons, hb, cond_false] at hfind
      rw [List.map_cons, if_neg hcond, List.map_cons, List.map_cons, ih hwf.2 hfind]
    | true =>
      rw [findTodo_cons, hb, cond_true] at hfind
      have hat : a = t := by injection hfind
      have haid : a.id = id := eq_of_beq hb
      rw [List.map_cons, if_pos hb, map_write_eq_of_not_mem t' (haid ▸ hwf.1),
        List.map_cons, List.map_cons, hid, hcomp, haid, hat]

theorem update_todo_pairs (id : String) (p : UpdateTodo) {db : Db} (hwf : wfDb db) :
    ((update_todo id p db).2).map (fun t => (t.id, t.completed)) =
      db.map (fun t => (t.id, t.completed)) := by
  cases hfind : findTodo db id with
  | none => rw [update_todo_none p hfind]
  | some found =>
    rw [update_todo_found p hfind]
    exact map_write_pairs hwf hfind (applyTitle p found)
      (by rw [applyTitle_id]; exact findTodo_id_of_some hfind)
      (applyTitle_completed p found)

theorem updateTodo_fromJson_ignores_completed (v : Json) (rest : List (String × Json)) :
    UpdateTodo.fromJson (Json.obj (("completed", v) :: rest)) =
      UpdateTodo.fromJson (Json.obj rest) := by
  simp only [UpdateTodo.fromJson, jsonLookup]
  rw [if_neg (by decide)]

theorem mem_map_write_of_ne {db : Db} {id : String} (t' t : Todo)
    (ht : t ∈ db) (hne : t.id ≠ id) :
    t ∈ db.map (fun row => if row.id == id then t' else row) := by
  have heq : (if t.id == id then t' else t) = t := by
    rw [if_neg]
    rw [beq_iff_eq]
    exact hne
  have hmem : (if t.id == id then t' else t) ∈
      db.map (fun row => if row.id == id then t' else row) :=
    List.mem_map_of_mem (fun row => if row.id == id then t' else row) ht
  rwa [heq] at hmem

theorem todo_json_roundtrip (t : Todo) : Todo.fromJson (Todo.toJson t) = some t := rfl

/-! The claims. -/

/-- C1: for every title, a successful create returns a Todo whose id is a
freshly minted (server-generated, absent from storage before the insert)
non-empty string, whose title equals the supplied title and whose
completed field is false; a subsequent get with that id returns the very
same Todo. -/
theorem create_then_get_returns_created (r : Nat) (payload : CreateTodo) (db : Db)
    (todo : Todo) (db' : Db) (h : create_todo r payload db = (Except.ok todo, db')) :
    todo.id ≠ "" ∧ todo.id = uuidV4String r ∧ todo.id ∉ db.map Todo.id ∧
      todo.title = payload.title ∧ todo.completed = false ∧
      get_todo todo.id db' = (Except.ok todo, db') := by
  obtain ⟨htodo, hdb, hfresh⟩ := create_todo_ok h
  have hid : todo.id = uuidV4String r := by rw [htodo]
  refine ⟨?_, hid, ?_, by rw [htodo], by rw [htodo], ?_⟩
  · rw [hid]
    exact uuidV4String_ne_empty r
  · rw [hid]
    exact findTodo_eq_none_iff.mp hfresh
  · refine get_todo_found ?_
    rw [hdb, findTodo_append_single todo (by rw [hid]; exact hfresh),
      if_pos (beq_self_eq_true _)]

theorem create_then_get_returns_created_witness :
    ({ id := uuidV4String 0, title := "buy milk", completed := false } : Todo).id ≠ "" ∧
    ({ id := uuidV4String 0, title := "buy milk", completed := false } : Todo).id =
      uuidV4String 0 ∧
    ({ id := uuidV4String 0, title := "buy milk", completed := false } : Todo).id ∉
      ([] : Db).map Todo.id ∧
    ({ id := uuidV4String 0, title := "buy milk", completed := false } : Todo).title =
      ("buy milk" : String) ∧
    ({ id := uuidV4String 0, title := "buy milk", completed := false } : Todo).completed =
      false ∧
    get_todo ({ id := uuidV4String 0, title := "buy milk", completed := false } : Todo).id
        [{ id := uuidV4String 0, title := "buy milk", completed := false }] =
      (Except.ok { id := uuidV4String 0, title := "buy milk", completed := false },
       [{ id := uuidV4String 0, title := "buy milk", completed := false }]) :=
  create_then_get_returns_created 0 { title := "buy milk" } []
    { id := uuidV4String 0, title := "buy milk", completed := false }
    [{ id := uuidV4String 0, title := "buy milk", completed := false }] (by rfl)

/-- C2: updating an existing row with a supplied title replaces only the
title, keeps completed, persists the merged row (it is what a subsequent
lookup finds), and returns it; updating an absent id returns 404 and
leaves the storage unchanged. -/
theorem update_with_title_merges (id newTitle : String) (db : Db) :
    (∀ found, findTodo db id = some found →
      update_todo id { title := some newTitle } db =
        (Except.ok { found with title := newTitle },
         db.map (fun row =>
          if row.id == id then { found with title := newTitle } else row)) ∧
      findTodo (update_todo id { title := some newTitle } db).2 id =
        some { found with title := newTitle }) ∧
    (findTodo db id = none →
      update_todo id { title := some newTitle } db = (Except.error 404, db)) := by
  constructor
  · intro found hfind
    have happ : applyTitle { title := some newTitle } found = { found with title := newTitle } :=
      rfl
    have hchar := update_todo_found { title := some newTitle } hfind
    rw [happ] at hchar
    refine ⟨hchar, ?_⟩
    rw [hchar]
    rw [findTodo_map_write { found with title := newTitle }
      (by simpa using findTodo_id_of_some hfind), hfind]
    rfl
  · exact update_todo_none { title := some newTitle }

theorem update_with_title_merges_witness :
    update_todo "a" { title := some "new" } [{ id := "a", title := "old", completed := true }] =
      (Except.ok { id := "a", title := "new", completed := true },
       [{ id := "a", title := "new", completed := true }]) ∧
    findTodo
        (update_todo "a" { title := some "new" }
          [{ id := "a", title := "old", completed := true }]).2 "a" =
      some { id := "a", title := "new", completed := true } :=
  (update_with_title_merges "a" "new" [{ id := "a", title := "old", completed := true }]).1
    { id := "a", title := "old", completed := true } (by rfl)

/-- C3: updating a stored Todo with an empty payload (no title supplied)
is an identity: the handler returns 200 with the unmodified Todo and the
storage is unchanged. -/
theorem update_empty_payload_identity (id : String) {db : Db} (t : Todo)
    (hwf : wfDb db) (h : findTodo db id = some t) :
    update_todo id { title := none } db = (Except.ok t, db) := by
  rw [update_todo_found { title := none } h]
  have happ : applyTitle { title := none } t = t := rfl
  rw [happ, map_write_self hwf h]

theorem update_empty_payload_identity_witness :
    update_todo "a" { title := none } [{ id := "a", title := "old", completed := true }] =
      (Except.ok { id := "a", title := "old", completed := true },
       [{ id := "a", title := "old", completed := true }]) :=
  update_empty_payload_identity "a" { id := "a", title := "old", completed := true }
    (by decide) (by rfl)

/-- C4: delete succeeds with 204 exactly when one row was removed; after
any delete of an id, a get on that id is 404 and a second delete of the
same id is 404 (an expected outcome, not a storage error). -/
theorem delete_semantics (id : String) (db : Db) :
    ((delete_todo id db).1 = Except.ok 204 ↔
      db.countP (fun row => row.id == id) = 1) ∧
    (get_todo id (delete_todo id db).2).1 = Except.error 404 ∧
    (delete_todo id (delete_todo id db).2).1 = Except.error 404 := by
  refine ⟨?_, ?_, ?_⟩
  · rw [delete_todo_def]
    by_cases hc : db.countP (fun row => row.id == id) = 1
    · simp [hc]
    · simp [hc]
  · simp [delete_todo_def, get_todo_none (findTodo_filter_ne db id)]
  · simp [delete_todo_def, countP_filter_ne]

/-- C5: getting an id that is present in no row returns 404 — never a
storage error and never a Todo — and the storage is untouched. -/
theorem get_never_created_not_found (id : String) (db : Db)
    (h : id ∉ db.map Todo.id) :
    get_todo id db = (Except.error 404, db) :=
  get_todo_none (findTodo_eq_none_iff.mpr h)

theorem get_never_created_not_found_witness :
    get_todo "never-created" [{ id := "a", title := "t", completed := false }] =
      (Except.error 404, [{ id := "a", title := "t", completed := false }]) :=
  get_never_created_not_found "never-created"
    [{ id := "a", title := "t", completed := false }] (by decide)

/-- C6: list returns exactly the stored rows (the empty sequence when
storage is empty); after two successful creates the listing is the prior
rows plus both new todos, with their supplied titles and distinct ids. -/
theorem list_returns_all :
    (∀ db : Db, list_todos db = Except.ok db) ∧
    (∀ (r1 r2 : Nat) (t1 t2 : String) (db db1 db2 : Db) (todo1 todo2 : Todo),
      create_todo r1 { title := t1 } db = (Except.ok todo1, db1) →
      create_todo r2 { title := t2 } db1 = (Except.ok todo2, db2) →
      list_todos db2 = Except.ok (db ++ [todo1, todo2]) ∧
      todo1.title = t1 ∧ todo2.title = t2 ∧ todo1.id ≠ todo2.id) := by
  refine ⟨fun db => rfl, ?_⟩
  intro r1 r2 t1 t2 db db1 db2 todo1 todo2 h1 h2
  obtain ⟨ht1, hdb1, hf1⟩ := create_todo_ok h1
  obtain ⟨ht2, hdb2, hf2⟩ := create_todo_ok h2
  refine ⟨?_, by rw [ht1], by rw [ht2], ?_⟩
  · rw [hdb2, hdb1]
    simp [list_todos]
  · intro heq
    have h2id : todo2.id = uuidV4String r2 := by rw [ht2]
    have hmem : todo1.id ∈ db1.map Todo.id := by
      rw [hdb1, List.map_append]
      exact List.mem_append_right _ (by simp)
    rw [heq, h2id] at hmem
    exact (findTodo_eq_none_iff.mp hf2) hmem

theorem list_returns_all_witness :
    list_todos [{ id := uuidV4String 0, title := "a", completed := false },
        { id := uuidV4String 1, title := "b", completed := false }] =
      Except.ok ([] ++ [{ id := uuidV4String 0, title := "a", completed := false },
        { id := uuidV4String 1, title := "b", completed := false }]) ∧
    ({ id := uuidV4String 0, title := "a", completed := false } : Todo).title =
      ("a" : String) ∧
    ({ id := uuidV4String 1, title := "b", completed := false } : Todo).title =
      ("b" : String) ∧
    ({ id := uuidV4String 0, title := "a", completed := false } : Todo).id ≠
      ({ id := uuidV4String 1, title := "b", completed := false } : Todo).id :=
  list_returns_all.2 0 1 "a" "b" []
    [{ id := uuidV4String 0, title := "a", completed := false }]
    [{ id := uuidV4String 0, title := "a", completed := false },
     { id := uuidV4String 1, title := "b", completed := false }]
    { id := uuidV4String 0, title := "a", completed := false }
    { id := uuidV4String 1, title := "b", completed := false }
    (by rfl) (by rfl)

/-- C7: every sequence of creates yields pairwise-distinct ids for the
successful ones; the operations preserve the one-row-per-id invariant
from the empty table; every minted id is a 36-character lowercase-hex
UUID-v4 text with hyphens; and the id of a created todo is the minted
uuid, never taken from the client payload. -/
theorem ids_unique_and_server_minted :
    (∀ (reqs : List (Nat × String)) (db : Db),
      (((createAll reqs db).1).map Todo.id).Nodup) ∧
    (wfDb [] ∧ ∀ db : Db, wfDb db →
      (∀ (r : Nat) (p : CreateTodo), wfDb (create_todo r p db).2) ∧
      (∀ (id : String) (p : UpdateTodo), wfDb (update_todo id p db).2) ∧
      (∀ id : String, wfDb (delete_todo id db).2)) ∧
    (∀ r : Nat, (uuidV4String r).length = 36 ∧
      ∀ c ∈ (uuidV4String r).data, isUuidChar c = true) ∧
    (∀ (r : Nat) (p : CreateTodo) (db : Db) (todo : Todo) (db' : Db),
      create_todo r p db = (Except.ok todo, db') → todo.id = uuidV4String r) := by
  refine ⟨createAll_nodup,
    ⟨wfDb_nil, fun db hwf =>
      ⟨fun r p => wfDb_create r p hwf,
       fun id p => wfDb_update id p hwf,
       fun id => wfDb_delete id hwf⟩⟩,
    fun r => ⟨uuidV4String_length r, uuidV4String_chars r⟩, ?_⟩
  intro r p db todo db' h
  obtain ⟨ht, _, _⟩ := create_todo_ok h
  rw [ht]

theorem ids_unique_and_server_minted_witness :
    wfDb (create_todo 0 { title := "a" } ([] : Db)).2 ∧ (uuidV4String 5).length = 36 :=
  ⟨(ids_unique_and_server_minted.2.1.2 [] (by decide)).1 0 { title := "a" },
   (ids_unique_and_server_minted.2.2.1 5).1⟩

/-- C8: a Todo returned by create serializes to JSON and deserializes
back to a field-for-field equal Todo. -/
theorem create_roundtrip_json (r : Nat) (p : CreateTodo) (db : Db) (todo : Todo)
    (db' : Db) (_h : create_todo r p db = (Except.ok todo, db')) :
    Todo.fromJson (Todo.toJson todo) = some todo :=
  todo_json_roundtrip todo

theorem create_roundtrip_json_witness :
    Todo.fromJson
        (Todo.toJson { id := uuidV4String 0, title := "buy milk", completed := false }) =
      some { id := uuidV4String 0, title := "buy milk", completed := false } :=
  create_roundtrip_json 0 { title := "buy milk" } []
    { id := uuidV4String 0, title := "buy milk", completed := false }
    [{ id := uuidV4String 0, title := "buy milk", completed := false }] (by rfl)

/-- C9: no operation changes the completed field of a stored Todo: an
update (with any decodable payload — the decoder ignores a `completed`
key as an unknown field) preserves the (id, completed) column pair of
every row, and create only ever sets completed to false. -/
theorem completed_immutable :
    (∀ (id : String) (p : UpdateTodo) (db : Db), wfDb db →
      ((update_todo id p db).2).map (fun t => (t.id, t.completed)) =
        db.map (fun t => (t.id, t.completed))) ∧
    (∀ (v : Json) (rest : List (String × Json)),
      UpdateTodo.fromJson (Json.obj (("completed", v) :: rest)) =
        UpdateTodo.fromJson (Json.obj rest)) ∧
    (∀ (r : Nat) (p : CreateTodo) (db : Db) (todo : Todo) (db' : Db),
      create_todo r p db = (Except.ok todo, db') → todo.completed = false) := by
  refine ⟨fun id p db hwf => update_todo_pairs id p hwf,
    updateTodo_fromJson_ignores_completed, ?_⟩
  intro r p db todo db' h
  obtain ⟨ht, _, _⟩ := create_todo_ok h
  rw [ht]

theorem completed_immutable_witness :
    ((update_todo "a" { title := some "new" }
        [{ id := "a", title := "old", completed := true }]).2).map
        (fun t => (t.id, t.completed)) =
      [{ id := "a", title := "old", completed := true }].map
        (fun t : Todo => (t.id, t.completed)) :=
  completed_immutable.1 "a" { title := some "new" }
    [{ id := "a", title := "old", completed := true }] (by decide)

/-- C10: item operations are frame-respecting: a get on id `x` leaves the
storage unchanged, and every stored Todo whose id differs from `x` is
still present unchanged after an update or delete addressed to `x`. -/
theorem item_ops_frame (x : String) (p : UpdateTodo) (db : Db) (t : Todo)
    (ht : t ∈ db) (hne : t.id ≠ x) :
    (get_todo x db).2 = db ∧ t ∈ (update_todo x p db).2 ∧ t ∈ (delete_todo x db).2 := by
  refine ⟨?_, ?_, ?_⟩
  · cases hfind : findTodo db x with
    | none => rw [get_todo_none hfind]
    | some found => rw [get_todo_found hfind]
  · cases hfind : findTodo db x with
    | none =>
      rw [update_todo_none p hfind]
      exact ht
    | some found =>
      rw [update_todo_found p hfind]
      exact mem_map_write_of_ne _ t ht hne
  · rw [delete_todo_def]
    refine List.mem_filter.mpr ⟨ht, ?_⟩
    simp [hne]

theorem item_ops_frame_witness :
    (get_todo "zzz" [{ id := "a", title := "t", completed := false }]).2 =
      [{ id := "a", title := "t", completed := false }] ∧
    ({ id := "a", title := "t", completed := false } : Todo) ∈
      (update_todo "zzz" { title := some "x" }
        [{ id := "a", title := "t", completed := false }]).2 ∧
    ({ id := "a", title := "t", completed := false } : Todo) ∈
      (delete_todo "zzz" [{ id := "a", title := "t", completed := false }]).2 :=
  item_ops_frame "zzz" { title := some "x" }
    [{ id := "a", title := "t", completed := false }]
    { id := "a", title := "t", completed := false } (by decide) (by decide)

end TodoApp
